import Mathlib

/-!
Verification development for the panoplymedia/local-cache repository.

The repository implements an in-process cache-aside layer in several
variants: a sharded in-memory key/value store with per-entry TTL and lazy
expiry (src/unnamed/part_001), a memory-backed `BadgerCache` facade over it
(src/unnamed/part_002), a Badger-backed `BadgerCache` (src/cache.go), and a
thin `OmniCache` wrapper (src/unnamed/part_005).

Keys and values are byte sequences, modelled as `List Nat` (each element a
byte value).  Go `time.Time` instants are modelled by their internal
(seconds, nanoseconds) pair flattened to a single integer number of
nanoseconds since January 1 of year 1; the seconds component of that pair is
a Go `int64` and wraps on overflow, which the model reproduces exactly
(`wrapInt64`, `wrapTime`).  This wrap is what makes `time.Unix(1<<63-1, 0)`
— the "never expires" sentinel of `MemoryCache.Write` — denote an instant
far in the past.
-/

/-- Keys and values of the cache are Go byte sequences: lists of byte
values. -/
abbrev GoString := List Nat

/-- Seconds between January 1 of year 1 and the Unix epoch; Go's
`unixToInternal` constant used by `time.Unix`. -/
def unixToInternal : Int := 62135596800

/-- Nanoseconds in one second. -/
def nanosPerSecond : Int := 1000000000

/-- Go `time.Second` as a `time.Duration` (nanoseconds). -/
def timeSecond : Int := 1000000000

/-- Two's-complement wrap of an unbounded integer into the `int64` range,
exactly as Go addition on `int64` behaves. -/
def wrapInt64 (x : Int) : Int := (x + 2 ^ 63) % 2 ^ 64 - 2 ^ 63

/-- Renormalize an unbounded nanosecond count into a Go `time.Time` value:
the seconds field is an `int64` and wraps, the nanosecond field stays in
`[0, 10^9)`.  This is the exact effect of Go's `Time.Add` seconds
arithmetic. -/
def wrapTime (x : Int) : Int :=
  wrapInt64 (x / nanosPerSecond) * nanosPerSecond + x % nanosPerSecond

/-- Go `time.Unix(sec, 0)`: adds `unixToInternal` to the seconds with
`int64` wrap-around (Go performs no overflow check; its documentation notes
that `1<<63-1` is one of the `sec` values with no corresponding time). -/
def timeUnix (sec : Int) : Int := wrapInt64 (sec + unixToInternal) * nanosPerSecond

/-- Go `t.Add(d)` for an instant `t` and duration `d` in nanoseconds. -/
def timeAdd (t d : Int) : Int := wrapTime (t + d)

/-- Modelled from the spec: the helpers `uint64ToBytes`/`bytesToUint64` are
repository code not present under src/ (they are called by `Incr` and by the
tests but defined in a file that was not provided).  The spec prescribes a
fixed-width unsigned integer in a defined byte order; they are modelled as
the 8-byte big-endian encoding of a `uint64`. -/
def uint64ToBytes (n : Nat) : List Nat :=
  [n / 2 ^ 56 % 256, n / 2 ^ 48 % 256, n / 2 ^ 40 % 256, n / 2 ^ 32 % 256,
   n / 2 ^ 24 % 256, n / 2 ^ 16 % 256, n / 2 ^ 8 % 256, n % 256]

/-- Modelled from the spec: big-endian decoding of the first 8 bytes, the
inverse of `uint64ToBytes`.  (Go's `binary.BigEndian.Uint64` reads exactly 8
bytes; the cache only ever decodes values it encoded itself.) -/
def bytesToUint64 (b : List Nat) : Nat :=
  match b with
  | b0 :: b1 :: b2 :: b3 :: b4 :: b5 :: b6 :: b7 :: _ =>
      b0 * 2 ^ 56 + b1 * 2 ^ 48 + b2 * 2 ^ 40 + b3 * 2 ^ 32 +
      b4 * 2 ^ 24 + b5 * 2 ^ 16 + b6 * 2 ^ 8 + b7
  | _ => 0

theorem bytesToUint64_uint64ToBytes (n : Nat) :
    bytesToUint64 (uint64ToBytes n) = n % 2 ^ 64 := by
  simp only [uint64ToBytes, bytesToUint64]
  omega

/-- Lowercasing of a single byte as `strings.ToLower` performs it on ASCII
code points: `A`..`Z` map to `a`..`z`, every other ASCII byte is unchanged.
For bytes below 128 this is exactly Go's behavior (an ASCII byte is a whole
rune and its Unicode lowercase mapping is the ASCII one); bytes at or above
128 begin multi-byte runes and are modelled as unchanged, which the theorems
below never rely on. -/
def asciiToLower (b : Nat) : Nat := if 65 ≤ b ∧ b ≤ 90 then b + 32 else b

/-- Byte-wise model of `strings.ToLower` (exact on ASCII input, see
`asciiToLower`). -/
def goToLowerASCII (s : GoString) : GoString := s.map asciiToLower

/-- src/unnamed/part_001:69-78, `keyToShard`.  The source indexes
`strings.ToLower(key)[0]`, which panics (index out of range) on the empty
key; the panic is modelled as `none`.  Otherwise the first lowercased byte
is clamped to the `z` bucket when outside 97..122 and shifted to an index in
0..25. -/
def keyToShard (key : GoString) : Option Nat :=
  match goToLowerASCII key with
  | [] => none
  | b :: _ => some ((if b < 97 ∨ 122 < b then 122 else b) - 97)

/-- src/unnamed/part_001:15-18, `cacheElement`: value bytes plus expiry
instant. -/
structure cacheElement where
  expiresAt : Int
  dat : List Nat
  deriving DecidableEq, Repr

/-- Association-list map from keys to cache elements.  The source stores 26
per-shard Go maps `Dat[idx][key]`; since `keyToShard` is a pure function of
the key, every key lives in exactly one shard and the 26 maps are
observationally one map keyed by the full key, which is how the model
represents them (operations still compute the shard index first so that the
panic on the empty key is preserved). -/
def lookupKey : List (GoString × cacheElement) → GoString → Option cacheElement
  | [], _ => none
  | (k', v) :: rest, k => if k' = k then some v else lookupKey rest k

/-- Go `delete(m, key)` on the association-list map. -/
def removeKey : List (GoString × cacheElement) → GoString → List (GoString × cacheElement)
  | [], _ => []
  | (k', v) :: rest, k =>
      if k' = k then removeKey rest k else (k', v) :: removeKey rest k

/-- Go `m[key] = v` (overwrite) on the association-list map. -/
def insertKey (m : List (GoString × cacheElement)) (k : GoString) (v : cacheElement) :
    List (GoString × cacheElement) :=
  (k, v) :: removeKey m k

theorem lookupKey_removeKey_self (m : List (GoString × cacheElement)) (k : GoString) :
    lookupKey (removeKey m k) k = none := by
  induction m with
  | nil => rfl
  | cons p rest ih =>
      obtain ⟨k', v⟩ := p
      simp only [removeKey]
      split
      · exact ih
      · simp only [lookupKey]
        rw [if_neg (by assumption)]
        exact ih

theorem lookupKey_removeKey_ne (m : List (GoString × cacheElement)) (k k₂ : GoString)
    (h : k₂ ≠ k) : lookupKey (removeKey m k) k₂ = lookupKey m k₂ := by
  induction m with
  | nil => rfl
  | cons p rest ih =>
      obtain ⟨k', v⟩ := p
      simp only [removeKey, lookupKey]
      split
      · rename_i hk
        rw [ih]
        rw [if_neg (by rw [hk]; exact fun hc => h hc.symm)]
      · simp only [lookupKey]
        split
        · rfl
        · exact ih

theorem lookupKey_insertKey_self (m : List (GoString × cacheElement)) (k : GoString)
    (v : cacheElement) : lookupKey (insertKey m k v) k = some v := by
  simp [insertKey, lookupKey]

theorem lookupKey_insertKey_ne (m : List (GoString × cacheElement)) (k k₂ : GoString)
    (v : cacheElement) (h : k₂ ≠ k) :
    lookupKey (insertKey m k v) k₂ = lookupKey m k₂ := by
  simp only [insertKey, lookupKey]
  rw [if_neg (fun hc => h hc.symm)]
  exact lookupKey_removeKey_ne m k k₂ h

/-- src/unnamed/part_001:9-13, `MemoryCache`: the 26 shard maps (merged, see
`lookupKey`) and the live-key counter, a Go `uint64`. -/
structure MemoryCache where
  Dat : List (GoString × cacheElement)
  KeyCount : Nat
  deriving DecidableEq, Repr

/-- src/unnamed/part_001:29-45, `MemoryCache.Read` at clock instant `now`:
returns the value and a hit flag, plus the possibly-updated cache.  A
present entry is a hit when `now` is strictly before its expiry; a present
expired entry is deleted and the key counter decremented (`uint64`
wrap-around on `KeyCount--` is modelled); otherwise the zero value and a
miss are returned.  `none` models the `keyToShard` panic on the empty
key. -/
def MemoryCache.Read (m : MemoryCache) (key : GoString) (now : Int) :
    Option (List Nat × Bool × MemoryCache) :=
  match keyToShard key with
  | none => none
  | some _ =>
      match lookupKey m.Dat key with
      | some el =>
          if now < el.expiresAt then some (el.dat, true, m)
          else some ([], false,
            { Dat := removeKey m.Dat key,
              KeyCount := (m.KeyCount + (2 ^ 64 - 1)) % 2 ^ 64 })
      | none => some ([], false, m)

/-- src/unnamed/part_001:47-67, `MemoryCache.Write` at clock instant `now`:
a TTL of 0 stores the sentinel expiry `time.Unix(1<<63-1, 0)`, any other TTL
stores `now + ttl`; the entry is stored unconditionally and the key counter
incremented (`uint64` wrap-around modelled).  `none` models the `keyToShard`
panic on the empty key. -/
def MemoryCache.Write (m : MemoryCache) (key : GoString) (val : List Nat)
    (ttl : Int) (now : Int) : Option MemoryCache :=
  match keyToShard key with
  | none => none
  | some _ =>
      let e := if ttl = 0 then timeUnix (2 ^ 63 - 1) else timeAdd now ttl
      some { Dat := insertKey m.Dat key ⟨e, val⟩,
             KeyCount := (m.KeyCount + 1) % 2 ^ 64 }

/-- The sentinel expiry stored for TTL 0 is an instant before year 1: the
`int64` seconds field of `time.Unix(1<<63-1, 0)` overflows. -/
theorem timeUnix_sentinel_neg : timeUnix (2 ^ 63 - 1) < 0 := by decide

/-- C1.  The never-expire sentinel is broken: `time.Unix(1<<63-1, 0)`
overflows Go's internal `int64` seconds representation (Go's documentation
notes `1<<63-1` is a `sec` value with no corresponding time), so the expiry
stored for TTL 0 compares as an instant before year 1.  Writing key "a"
with TTL 0 into an empty cache and reading it back at the very same clock
instant (Unix time 1700000000) is already a miss: the entry is evicted as
expired instead of being retrievable indefinitely, and the stored sentinel
compares before the Unix epoch rather than after every observed clock
value. -/
theorem c1_ttl_zero_entry_born_expired :
    (MemoryCache.Write ⟨[], 0⟩ [97] [1, 2] 0 ((62135596800 + 1700000000) * 1000000000)).bind
        (fun m1 => m1.Read [97] ((62135596800 + 1700000000) * 1000000000))
      = some ([], false, ⟨[], 0⟩) ∧
    timeUnix (2 ^ 63 - 1) < timeUnix 0 := by
  constructor
  · rfl
  · decide

/-- C2 counterexample.  `keyToShard` is not total: on the empty key the
source evaluates `strings.ToLower("")[0]`, an index-out-of-range panic
(modelled as `none`); in particular the empty key does not map to the
fallback bucket 25. -/
theorem c2_empty_key_not_routed :
    keyToShard [] = none ∧ keyToShard [] ≠ some 25 := by
  constructor
  · rfl
  · intro h
    cases h

/-- C2 amended.  For every nonempty key `keyToShard` returns a shard index
in 0..25, and every nonempty key whose first byte is an ASCII character
(below 128) that lowercases outside the range 97..122 — digits, symbols —
is routed to the fallback bucket 25; the empty key, excluded here, makes
the source panic (`c2_empty_key_not_routed`). -/
theorem c2_route_nonempty_total_with_fallback (b : Nat) (bs : List Nat) :
    (∃ i, keyToShard (b :: bs) = some i ∧ i < 26) ∧
    (b < 128 → (asciiToLower b < 97 ∨ 122 < asciiToLower b) →
      keyToShard (b :: bs) = some 25) := by
  constructor
  · simp only [keyToShard, goToLowerASCII, List.map]
    by_cases h : asciiToLower b < 97 ∨ 122 < asciiToLower b
    · exact ⟨25, by rw [if_pos h], by omega⟩
    · refine ⟨asciiToLower b - 97, by rw [if_neg h], ?_⟩
      omega
  · intro _ h
    simp only [keyToShard, goToLowerASCII, List.map]
    rw [if_pos h]

/-- C2 witness: the digit key "0" is routed to the fallback bucket 25. -/
theorem c2_route_witness :
    (∃ i, keyToShard [48] = some i ∧ i < 26) ∧
    (48 < 128 → (asciiToLower 48 < 97 ∨ 122 < asciiToLower 48) →
      keyToShard [48] = some 25) :=
  c2_route_nonempty_total_with_fallback 48 []

/-- src/unnamed/part_002:74-78, the memory-backed `BadgerCache`: a
`MemoryCache` plus the construction-time default TTL.  (Its `NewCache`
rejects default TTLs strictly between 0 and one second.) -/
structure BadgerCache where
  db : MemoryCache
  TTL : Int
  deriving DecidableEq, Repr

/-- src/unnamed/part_002:111-126, `BadgerCache.FetchWithTTL` at instant
`now`.  The loader `l` models `LocalCache.CacheMiss` and returns Go's
`([]byte, error)` pair.  The result is the returned `([]byte, error)` pair,
the updated cache, and whether the loader was invoked; `none` models the
`keyToShard` panic. -/
def BadgerCache.FetchWithTTL (c : BadgerCache) (k : GoString)
    (l : GoString → List Nat × Option String) (ttl now : Int) :
    Option ((List Nat × Option String) × BadgerCache × Bool) :=
  match c.db.Read k now with
  | none => none
  | some (val, true, db₂) => some ((val, none), { c with db := db₂ }, false)
  | some (_, false, db₂) =>
      match l k with
      | (ret, some e) => some ((ret, some e), { c with db := db₂ }, true)
      | (ret, none) =>
          match db₂.Write k ret ttl now with
          | none => none
          | some db₃ => some ((ret, none), { c with db := db₃ }, true)

/-- src/unnamed/part_002:135-138, `BadgerCache.SetWithTTL`: writes through
to `MemoryCache.Write` with no TTL validation and always returns a nil
error (the first component). -/
def BadgerCache.SetWithTTL (c : BadgerCache) (k : GoString) (v : List Nat)
    (ttl now : Int) : Option (Option String × BadgerCache) :=
  match c.db.Write k v ttl now with
  | none => none
  | some db₂ => some (none, { c with db := db₂ })

/-- src/unnamed/part_002:158-173, `BadgerCache.Incr` at instant `now`: the
whole read-modify-write runs under the cache-wide mutex, so sequential
composition models any concurrent execution.  An existing (unexpired) value
is decoded, the delta added with `uint64` wrap-around, and the result
written back with the default TTL `c.TTL`. -/
def BadgerCache.Incr (c : BadgerCache) (k : GoString) (v : Nat) (now : Int) :
    Option (Nat × BadgerCache) :=
  match c.db.Read k now with
  | none => none
  | some (val, ex, db₂) =>
      let newVal := if ex then (bytesToUint64 val + v) % 2 ^ 64 else v
      match db₂.Write k (uint64ToBytes newVal) c.TTL now with
      | none => none
      | some db₃ => some (newVal, { c with db := db₃ })

/-- src/unnamed/part_002:176-183, `BadgerCache.Get`: a read hit returns the
value with a nil error, a miss returns the Go error "key not found". -/
def BadgerCache.Get (c : BadgerCache) (k : GoString) (now : Int) :
    Option ((List Nat × Option String) × BadgerCache) :=
  match c.db.Read k now with
  | none => none
  | some (val, true, db₂) => some ((val, none), { c with db := db₂ })
  | some (_, false, db₂) => some (([], some "key not found"), { c with db := db₂ })

/-- Sequential composition of `BadgerCache.Incr` calls (all at instant
`now`), collecting the returned values. -/
def BadgerCache.IncrSeq (k : GoString) (now : Int) :
    BadgerCache → List Nat → Option (List Nat × BadgerCache)
  | c, [] => some ([], c)
  | c, d :: ds =>
      match c.Incr k d now with
      | none => none
      | some (r, c₂) =>
          match BadgerCache.IncrSeq k now c₂ ds with
          | none => none
          | some (rs, c₃) => some (r :: rs, c₃)

/-- Running totals of a list of deltas starting from `a`. -/
def cumSums : Nat → List Nat → List Nat
  | _, [] => []
  | a, d :: ds => (a + d) :: cumSums (a + d) ds

/-- C7.  Lazy eviction on read (src/unnamed/part_001:29-45): for a key
holding an entry whose expiry is at or before `now`, `Read` reports a miss,
deletes the key from the map and decrements the live-key counter by one
(with `uint64` wrap-around, so exactly by one whenever the counter is a
positive `uint64`); a `Read` that reports a hit always has `now` strictly
before the expiry, returns the stored bytes and leaves the cache untouched;
and `Write` never removes any other key, so expired entries disappear only
through such a read. -/
theorem c7_lazy_eviction_on_read (m : MemoryCache) (k : GoString) (i : Nat)
    (el : cacheElement) (now : Int)
    (hshard : keyToShard k = some i) (hel : lookupKey m.Dat k = some el) :
    (el.expiresAt ≤ now →
      m.Read k now = some ([], false,
        ⟨removeKey m.Dat k, (m.KeyCount + (2 ^ 64 - 1)) % 2 ^ 64⟩) ∧
      lookupKey (removeKey m.Dat k) k = none ∧
      (0 < m.KeyCount → m.KeyCount < 2 ^ 64 →
        (m.KeyCount + (2 ^ 64 - 1)) % 2 ^ 64 = m.KeyCount - 1)) ∧
    (∀ d m₂, m.Read k now = some (d, true, m₂) →
      now < el.expiresAt ∧ d = el.dat ∧ m₂ = m) ∧
    (∀ v ttl m₂, m.Write k v ttl now = some m₂ →
      ∀ k₂, k₂ ≠ k → lookupKey m₂.Dat k₂ = lookupKey m.Dat k₂) := by
  refine ⟨?_, ?_, ?_⟩
  · intro hexp
    refine ⟨?_, lookupKey_removeKey_self m.Dat k, ?_⟩
    · simp only [MemoryCache.Read, hshard, hel]
      rw [if_neg (not_lt.mpr hexp)]
    · intro h1 h2
      omega
  · intro d m₂ h
    simp only [MemoryCache.Read, hshard, hel] at h
    by_cases hc : now < el.expiresAt
    · rw [if_pos hc] at h
      simp only [Option.some.injEq, Prod.mk.injEq] at h
      exact ⟨hc, h.1.symm, h.2.2.symm⟩
    · rw [if_neg hc] at h
      simp only [Option.some.injEq, Prod.mk.injEq] at h
      exact absurd h.2.1 (by decide)
  · intro v ttl m₂ h k₂ hk
    simp only [MemoryCache.Write, hshard, Option.some.injEq] at h
    subst h
    exact lookupKey_insertKey_ne m.Dat k k₂ _ hk

/-- C7 witness: a cache holding key "a" expired at instant 5, read at
instant 10. -/
theorem c7_lazy_eviction_witness :
    ((5 : Int) ≤ 10 →
      MemoryCache.Read ⟨[([97], ⟨5, [9]⟩)], 1⟩ [97] 10 = some ([], false,
        ⟨removeKey [([97], ⟨5, [9]⟩)] [97], (1 + (2 ^ 64 - 1)) % 2 ^ 64⟩) ∧
      lookupKey (removeKey [([97], ⟨5, [9]⟩)] [97]) [97] = none ∧
      (0 < 1 → 1 < 2 ^ 64 → (1 + (2 ^ 64 - 1)) % 2 ^ 64 = 1 - 1)) ∧
    (∀ d m₂, MemoryCache.Read ⟨[([97], ⟨5, [9]⟩)], 1⟩ [97] 10 = some (d, true, m₂) →
      (10 : Int) < (5 : Int) ∧ d = [9] ∧ m₂ = ⟨[([97], ⟨5, [9]⟩)], 1⟩) ∧
    (∀ v ttl m₂, MemoryCache.Write ⟨[([97], ⟨5, [9]⟩)], 1⟩ [97] v ttl 10 = some m₂ →
      ∀ k₂, k₂ ≠ [97] → lookupKey m₂.Dat k₂ = lookupKey [([97], ⟨5, [9]⟩)] k₂) :=
  c7_lazy_eviction_on_read ⟨[([97], ⟨5, [9]⟩)], 1⟩ [97] 0 ⟨5, [9]⟩ 10 rfl rfl

/-- C5 counterexample.  The claim also asserts that after a failed loader
the store state for the key is "unchanged"; for an expired entry this is
false: the read inside `FetchWithTTL` (src/unnamed/part_002:114) lazily
evicts the expired entry, so the map entry for the key changes from present
to absent even though nothing is written.  Concretely: key "a" holds an
entry expired at instant 0; fetching at instant 5 with a failing loader
propagates the loader error, but the entry for "a" is gone afterwards. -/
theorem c5_expired_entry_evicted_on_failed_fetch :
    lookupKey [([97], ⟨0, [7]⟩)] [97] = some ⟨0, [7]⟩ ∧
    BadgerCache.FetchWithTTL ⟨⟨[([97], ⟨0, [7]⟩)], 1⟩, 1000000000⟩ [97]
        (fun _ => ([], some "db down")) 1000000000 5
      = some (([], some "db down"), ⟨⟨[], 0⟩, 1000000000⟩, true) ∧
    lookupKey ([] : List (GoString × cacheElement)) [97] = none := by
  refine ⟨rfl, ?_, rfl⟩
  rfl

/-- C5 amended.  Loader failure writes nothing (src/unnamed/part_002:111-126
and src/unnamed/part_005:46-57): when the key is absent or expired and the
loader fails, `FetchWithTTL` propagates the loader's error verbatim and
performs no write; afterwards the key is absent from the map — an expired
entry may have been lazily evicted by the read, so the entry is not
necessarily bit-for-bit "unchanged", but it is never written — and a
subsequent `Get` at any instant reports "key not found". -/
theorem c5_loader_failure_leaves_key_absent (c : BadgerCache) (k : GoString)
    (i : Nat) (l : GoString → List Nat × Option String) (ret : List Nat)
    (e : String) (ttl now now₂ : Int)
    (hshard : keyToShard k = some i)
    (hload : l k = (ret, some e))
    (hmiss : ∀ el, lookupKey c.db.Dat k = some el → el.expiresAt ≤ now) :
    ∃ db₂, c.FetchWithTTL k l ttl now = some ((ret, some e), ⟨db₂, c.TTL⟩, true) ∧
      lookupKey db₂.Dat k = none ∧
      BadgerCache.Get ⟨db₂, c.TTL⟩ k now₂
        = some (([], some "key not found"), ⟨db₂, c.TTL⟩) := by
  cases hlk : lookupKey c.db.Dat k with
  | none =>
      refine ⟨c.db, ?_, hlk, ?_⟩
      · simp only [BadgerCache.FetchWithTTL, MemoryCache.Read, hshard, hlk, hload]
      · simp only [BadgerCache.Get, MemoryCache.Read, hshard, hlk]
  | some el =>
      have hexp : el.expiresAt ≤ now := hmiss el hlk
      refine ⟨⟨removeKey c.db.Dat k, (c.db.KeyCount + (2 ^ 64 - 1)) % 2 ^ 64⟩, ?_, ?_, ?_⟩
      · simp only [BadgerCache.FetchWithTTL, MemoryCache.Read, hshard, hlk, hload]
        rw [if_neg (not_lt.mpr hexp)]
      · exact lookupKey_removeKey_self c.db.Dat k
      · simp only [BadgerCache.Get, MemoryCache.Read, hshard,
          lookupKey_removeKey_self c.db.Dat k]

/-- C5 witness: key "a" absent from an empty cache, loader fails with
"db down"; fetching at instant 5 propagates the error, stores nothing, and a
get at instant 6 reports "key not found". -/
theorem c5_loader_failure_witness :
    ∃ db₂, BadgerCache.FetchWithTTL ⟨⟨[], 0⟩, 1000000000⟩ [97]
        (fun _ => ([], some "db down")) 1000000000 5
        = some (([], some "db down"), ⟨db₂, 1000000000⟩, true) ∧
      lookupKey db₂.Dat [97] = none ∧
      BadgerCache.Get ⟨db₂, 1000000000⟩ [97] 6
        = some (([], some "key not found"), ⟨db₂, 1000000000⟩) :=
  c5_loader_failure_leaves_key_absent ⟨⟨[], 0⟩, 1000000000⟩ [97] 0
    (fun _ => ([], some "db down")) [] "db down" 1000000000 5 6 rfl rfl
    (by intro el h; simp [lookupKey] at h)

/-- C9 counterexample.  The memory-backed variant performs no sub-second TTL
validation on its write path: `BadgerCache.SetWithTTL`
(src/unnamed/part_002:135-138) writes straight through to
`MemoryCache.Write`.  Writing key "a" with TTL 500ms at instant 10^9 returns
a nil error and stores the entry with expiry `now + 500ms`, and a get 100ms
later retrieves it — the sub-second TTL is stored, not rejected. -/
theorem c9_memory_subsecond_ttl_stored_without_error :
    (0 : Int) < 500000000 ∧ (500000000 : Int) < timeSecond ∧
    BadgerCache.SetWithTTL ⟨⟨[], 0⟩, 1000000000⟩ [97] [7] 500000000 1000000000
      = some (none, ⟨⟨[([97], ⟨1500000000, [7]⟩)], 1⟩, 1000000000⟩) ∧
    BadgerCache.Get ⟨⟨[([97], ⟨1500000000, [7]⟩)], 1⟩, 1000000000⟩ [97] 1100000000
      = some (([7], none), ⟨⟨[([97], ⟨1500000000, [7]⟩)], 1⟩, 1000000000⟩) := by
  refine ⟨by decide, by decide, ?_, ?_⟩ <;> rfl

/-- C8.  Fetch is idempotent on a hit (src/unnamed/part_002:111-126 with
src/unnamed/part_001:29-45): a first `FetchWithTTL` on an absent key invokes
the loader, stores its value `v`, and returns it; any second fetch before
the stored expiry `timeAdd now ttl` returns the same `v` with the cache
unchanged and without invoking its loader; a third fetch at or after the
expiry misses again and invokes its loader afresh. -/
theorem c8_fetch_idempotent_on_hit (c : BadgerCache) (k : GoString) (i : Nat)
    (v v₃ : List Nat) (l l₂ l₃ : GoString → List Nat × Option String)
    (ttl now now₂ now₃ : Int)
    (hshard : keyToShard k = some i)
    (habsent : lookupKey c.db.Dat k = none)
    (httl : ttl ≠ 0)
    (hload : l k = (v, none))
    (hhit : now₂ < timeAdd now ttl)
    (hmiss3 : timeAdd now ttl ≤ now₃)
    (hload3 : l₃ k = (v₃, none)) :
    ∃ c₁, c.FetchWithTTL k l ttl now = some ((v, none), c₁, true) ∧
      c₁.FetchWithTTL k l₂ ttl now₂ = some ((v, none), c₁, false) ∧
      ∃ c₃, c₁.FetchWithTTL k l₃ ttl now₃ = some ((v₃, none), c₃, true) := by
  refine ⟨⟨⟨insertKey c.db.Dat k ⟨timeAdd now ttl, v⟩,
    (c.db.KeyCount + 1) % 2 ^ 64⟩, c.TTL⟩, ?_, ?_, ?_⟩
  · simp only [BadgerCache.FetchWithTTL, MemoryCache.Read, hshard, habsent, hload,
      MemoryCache.Write]
    rw [if_neg httl]
  · simp only [BadgerCache.FetchWithTTL, MemoryCache.Read, hshard,
      lookupKey_insertKey_self c.db.Dat k ⟨timeAdd now ttl, v⟩]
    rw [if_pos hhit]
  · refine ⟨⟨⟨insertKey (removeKey (insertKey c.db.Dat k ⟨timeAdd now ttl, v⟩) k) k
      ⟨timeAdd now₃ ttl, v₃⟩,
      (((c.db.KeyCount + 1) % 2 ^ 64 + (2 ^ 64 - 1)) % 2 ^ 64 + 1) % 2 ^ 64⟩,
      c.TTL⟩, ?_⟩
    simp only [BadgerCache.FetchWithTTL, MemoryCache.Read, hshard,
      lookupKey_insertKey_self c.db.Dat k ⟨timeAdd now ttl, v⟩, hload3,
      MemoryCache.Write]
    rw [if_neg (not_lt.mpr hmiss3), if_neg httl]

/-- C8 witness: the doubler scenario of the spec with byte values — key
"fetch" absent, TTL one second at instant 0, loader yields [4]; the second
fetch half a second later is a pure hit returning [4] without invoking a
loader that would yield [8]; a third fetch two seconds later invokes its
loader and returns [8]. -/
theorem c8_fetch_idempotent_witness :
    ∃ c₁, BadgerCache.FetchWithTTL ⟨⟨[], 0⟩, 1000000000⟩ [102, 101, 116, 99, 104]
        (fun _ => ([4], none)) 1000000000 0 = some (([4], none), c₁, true) ∧
      c₁.FetchWithTTL [102, 101, 116, 99, 104] (fun _ => ([8], none)) 1000000000 500000000
        = some (([4], none), c₁, false) ∧
      ∃ c₃, c₁.FetchWithTTL [102, 101, 116, 99, 104] (fun _ => ([8], none)) 1000000000 2000000000
        = some (([8], none), c₃, true) :=
  c8_fetch_idempotent_on_hit ⟨⟨[], 0⟩, 1000000000⟩ [102, 101, 116, 99, 104] 5
    [4] [8] (fun _ => ([4], none)) (fun _ => ([8], none)) (fun _ => ([8], none))
    1000000000 0 500000000 2000000000 rfl rfl (by decide) rfl (by decide)
    (by decide) rfl

/-- C10.  Implicit TTL-reset by increment (src/unnamed/part_002:158-173 with
src/unnamed/part_001:47-67): `Incr` always writes back with the
construction-time default TTL `c.TTL`, discarding the entry's previous
expiry.  For a key written with TTL 0 (sentinel expiry), one increment at
`t1` leaves the entry expiring at `t1 + c.TTL`: a get at any `t2` at or
after that instant reports "key not found", while a further increment at
`t3` inside the window pushes the expiry to `t3 + c.TTL`.  (Because the TTL-0
sentinel is itself an already-past instant — see
`c1_ttl_zero_entry_born_expired` — the read inside the first increment
treats the key as absent, so that increment returns the bare delta.) -/
theorem c10_incr_resets_expiry_to_default_ttl (c : BadgerCache) (k : GoString)
    (i : Nat) (v : List Nat) (d d₂ : Nat) (t0 t1 t2 t3 : Int)
    (hshard : keyToShard k = some i)
    (httl : c.TTL ≠ 0)
    (ht1 : 0 ≤ t1)
    (hd : d < 2 ^ 64)
    (hexp2 : timeAdd t1 c.TTL ≤ t2)
    (hwin3 : t3 < timeAdd t1 c.TTL) :
    ∃ c₁ c₂, c.SetWithTTL k v 0 t0 = some (none, c₁) ∧
      lookupKey c₁.db.Dat k = some ⟨timeUnix (2 ^ 63 - 1), v⟩ ∧
      c₁.Incr k d t1 = some (d, c₂) ∧
      lookupKey c₂.db.Dat k = some ⟨timeAdd t1 c.TTL, uint64ToBytes d⟩ ∧
      (∃ c₄, c₂.Get k t2 = some (([], some "key not found"), c₄)) ∧
      (∃ c₃, c₂.Incr k d₂ t3 = some ((d + d₂) % 2 ^ 64, c₃) ∧
        lookupKey c₃.db.Dat k
          = some ⟨timeAdd t3 c.TTL, uint64ToBytes ((d + d₂) % 2 ^ 64)⟩) := by
  have hsent : ¬ t1 < timeUnix (2 ^ 63 - 1) :=
    not_lt.mpr (le_trans (le_of_lt timeUnix_sentinel_neg) ht1)
  refine ⟨⟨⟨insertKey c.db.Dat k ⟨timeUnix (2 ^ 63 - 1), v⟩,
      (c.db.KeyCount + 1) % 2 ^ 64⟩, c.TTL⟩, ?_⟩
  refine ⟨⟨⟨insertKey (removeKey (insertKey c.db.Dat k ⟨timeUnix (2 ^ 63 - 1), v⟩) k) k
      ⟨timeAdd t1 c.TTL, uint64ToBytes d⟩,
      (((c.db.KeyCount + 1) % 2 ^ 64 + (2 ^ 64 - 1)) % 2 ^ 64 + 1) % 2 ^ 64⟩, c.TTL⟩,
    ?_, ?_, ?_, ?_, ?_, ?_⟩
  · simp only [BadgerCache.SetWithTTL, MemoryCache.Write, hshard]
    rfl
  · exact lookupKey_insertKey_self c.db.Dat k ⟨timeUnix (2 ^ 63 - 1), v⟩
  · simp only [BadgerCache.Incr, MemoryCache.Read, hshard,
      lookupKey_insertKey_self, MemoryCache.Write]
    rw [if_neg hsent, if_neg httl]
    rfl
  · exact lookupKey_insertKey_self _ k ⟨timeAdd t1 c.TTL, uint64ToBytes d⟩
  · refine ⟨⟨⟨removeKey (insertKey
        (removeKey (insertKey c.db.Dat k ⟨timeUnix (2 ^ 63 - 1), v⟩) k) k
        ⟨timeAdd t1 c.TTL, uint64ToBytes d⟩) k,
      ((((c.db.KeyCount + 1) % 2 ^ 64 + (2 ^ 64 - 1)) % 2 ^ 64 + 1) % 2 ^ 64
        + (2 ^ 64 - 1)) % 2 ^ 64⟩, c.TTL⟩, ?_⟩
    simp only [BadgerCache.Get, MemoryCache.Read, hshard, lookupKey_insertKey_self]
    rw [if_neg (not_lt.mpr hexp2)]
  · refine ⟨⟨⟨insertKey (insertKey
        (removeKey (insertKey c.db.Dat k ⟨timeUnix (2 ^ 63 - 1), v⟩) k) k
        ⟨timeAdd t1 c.TTL, uint64ToBytes d⟩) k
        ⟨timeAdd t3 c.TTL, uint64ToBytes ((d + d₂) % 2 ^ 64)⟩,
      ((((c.db.KeyCount + 1) % 2 ^ 64 + (2 ^ 64 - 1)) % 2 ^ 64 + 1) % 2 ^ 64
        + 1) % 2 ^ 64⟩, c.TTL⟩, ?_, ?_⟩
    · simp only [BadgerCache.Incr, MemoryCache.Read, hshard,
        lookupKey_insertKey_self, MemoryCache.Write]
      rw [if_pos hwin3, if_neg httl]
      simp only [bytesToUint64_uint64ToBytes, Nat.mod_eq_of_lt hd]
      rfl
    · exact lookupKey_insertKey_self _ k
        ⟨timeAdd t3 c.TTL, uint64ToBytes ((d + d₂) % 2 ^ 64)⟩

/-- C10 witness: default TTL one second, key "a" written with TTL 0 at
instant 0, incremented by 2 at instant 10^9, read at 2·10^9 (expired) and
incremented by 3 at 1.5·10^9 (inside the window). -/
theorem c10_incr_resets_expiry_witness :
    ∃ c₁ c₂, BadgerCache.SetWithTTL ⟨⟨[], 0⟩, 1000000000⟩ [97] [7] 0 0
        = some (none, c₁) ∧
      lookupKey c₁.db.Dat [97] = some ⟨timeUnix (2 ^ 63 - 1), [7]⟩ ∧
      c₁.Incr [97] 2 1000000000 = some (2, c₂) ∧
      lookupKey c₂.db.Dat [97]
        = some ⟨timeAdd 1000000000 1000000000, uint64ToBytes 2⟩ ∧
      (∃ c₄, c₂.Get [97] 2000000000 = some (([], some "key not found"), c₄)) ∧
      (∃ c₃, c₂.Incr [97] 3 1500000000 = some ((2 + 3) % 2 ^ 64, c₃) ∧
        lookupKey c₃.db.Dat [97]
          = some ⟨timeAdd 1500000000 1000000000, uint64ToBytes ((2 + 3) % 2 ^ 64)⟩) :=
  c10_incr_resets_expiry_to_default_ttl ⟨⟨[], 0⟩, 1000000000⟩ [97] 0 [7] 2 3
    0 1000000000 2000000000 1500000000 rfl (by decide) (by decide) (by decide)
    (by decide) (by decide)

theorem incrSeq_invariant (k : GoString) (i : Nat) (now : Int) (ds : List Nat) :
    ∀ (c : BadgerCache) (a : Nat),
    keyToShard k = some i → c.TTL ≠ 0 → now < timeAdd now c.TTL →
    lookupKey c.db.Dat k = some ⟨timeAdd now c.TTL, uint64ToBytes a⟩ →
    a < 2 ^ 64 → a + ds.sum < 2 ^ 64 →
    ∃ c₂, BadgerCache.IncrSeq k now c ds = some (cumSums a ds, c₂) ∧
      c₂.TTL = c.TTL ∧
      lookupKey c₂.db.Dat k = some ⟨timeAdd now c.TTL, uint64ToBytes (a + ds.sum)⟩ := by
  induction ds with
  | nil =>
      intro c a hshard httl hlive hlook ha hsum
      exact ⟨c, rfl, rfl, by simpa using hlook⟩
  | cons d ds ih =>
      intro c a hshard httl hlive hlook ha hsum
      simp only [List.sum_cons] at hsum
      have had : a + d < 2 ^ 64 := by omega
      have hincr : c.Incr k d now = some (a + d,
          ⟨⟨insertKey c.db.Dat k ⟨timeAdd now c.TTL, uint64ToBytes (a + d)⟩,
            (c.db.KeyCount + 1) % 2 ^ 64⟩, c.TTL⟩) := by
        simp only [BadgerCache.Incr, MemoryCache.Read, hshard, hlook,
          MemoryCache.Write]
        rw [if_pos hlive, if_neg httl]
        simp only [bytesToUint64_uint64ToBytes, Nat.mod_eq_of_lt ha,
          Nat.mod_eq_of_lt had]
        rfl
      obtain ⟨c₂, hseq, httl₂, hlook₂⟩ := ih
        ⟨⟨insertKey c.db.Dat k ⟨timeAdd now c.TTL, uint64ToBytes (a + d)⟩,
          (c.db.KeyCount + 1) % 2 ^ 64⟩, c.TTL⟩ (a + d)
        hshard httl hlive (lookupKey_insertKey_self _ _ _) had (by omega)
      refine ⟨c₂, ?_, httl₂, ?_⟩
      · simp only [BadgerCache.IncrSeq, hincr, hseq, cumSums]
      · rw [hlook₂]
        have h₃ : a + d + ds.sum = a + (d + ds.sum) := by omega
        simp only [List.sum_cons]
        rw [← h₃]

/-- C4.  Sequential increment computes the running sum
(src/unnamed/part_002:158-173): starting from an absent key, a nonempty
sequence of `Incr` calls (all before any entry expires, at a fixed instant
`now` inside the default-TTL window, with the deltas summing below `2^64`)
returns the cumulative sums of the deltas so far; the final returned value
equals the value persisted under the key, and a subsequent `Get` retrieves
bytes that decode to that sum. -/
theorem c4_incr_sequential_running_sum (c : BadgerCache) (k : GoString) (i : Nat)
    (now : Int) (d : Nat) (ds : List Nat)
    (hshard : keyToShard k = some i)
    (habsent : lookupKey c.db.Dat k = none)
    (httl : c.TTL ≠ 0)
    (hlive : now < timeAdd now c.TTL)
    (hsum : d + ds.sum < 2 ^ 64) :
    ∃ c₂, BadgerCache.IncrSeq k now c (d :: ds) = some (cumSums 0 (d :: ds), c₂) ∧
      lookupKey c₂.db.Dat k = some ⟨timeAdd now c.TTL, uint64ToBytes (d + ds.sum)⟩ ∧
      c₂.Get k now = some ((uint64ToBytes (d + ds.sum), none), c₂) ∧
      bytesToUint64 (uint64ToBytes (d + ds.sum)) = d + ds.sum := by
  have hincr : c.Incr k d now = some (d,
      ⟨⟨insertKey c.db.Dat k ⟨timeAdd now c.TTL, uint64ToBytes d⟩,
        (c.db.KeyCount + 1) % 2 ^ 64⟩, c.TTL⟩) := by
    simp only [BadgerCache.Incr, MemoryCache.Read, hshard, habsent,
      MemoryCache.Write]
    rw [if_neg httl]
    rfl
  obtain ⟨c₂, hseq, httl₂, hlook₂⟩ := incrSeq_invariant k i now ds
    ⟨⟨insertKey c.db.Dat k ⟨timeAdd now c.TTL, uint64ToBytes d⟩,
      (c.db.KeyCount + 1) % 2 ^ 64⟩, c.TTL⟩ d
    hshard httl hlive (lookupKey_insertKey_self _ _ _) (by omega) hsum
  have hcum : cumSums 0 (d :: ds) = d :: cumSums d ds := by
    simp [cumSums]
  refine ⟨c₂, ?_, hlook₂, ?_, ?_⟩
  · rw [hcum]
    simp only [BadgerCache.IncrSeq, hincr, hseq]
  · simp only [BadgerCache.Get, MemoryCache.Read, hshard, hlook₂]
    rw [if_pos hlive]
  · rw [bytesToUint64_uint64ToBytes]
    exact Nat.mod_eq_of_lt hsum

/-- C4 witness: the spec's concrete scenario — key "m" absent, default TTL
one second, sequential increments of 2, 2, 4, 3 at instant 0 return the
running sums 2, 4, 8, 11 and leave 11 persisted and retrievable. -/
theorem c4_incr_sequential_witness :
    (∃ c₂, BadgerCache.IncrSeq [109] 0 ⟨⟨[], 0⟩, 1000000000⟩ (2 :: [2, 4, 3])
        = some (cumSums 0 (2 :: [2, 4, 3]), c₂) ∧
      lookupKey c₂.db.Dat [109]
        = some ⟨timeAdd 0 1000000000, uint64ToBytes (2 + [2, 4, 3].sum)⟩ ∧
      c₂.Get [109] 0 = some ((uint64ToBytes (2 + [2, 4, 3].sum), none), c₂) ∧
      bytesToUint64 (uint64ToBytes (2 + [2, 4, 3].sum)) = 2 + [2, 4, 3].sum) ∧
    cumSums 0 (2 :: [2, 4, 3]) = [2, 4, 8, 11] ∧ 2 + [2, 4, 3].sum = 11 :=
  ⟨c4_incr_sequential_running_sum ⟨⟨[], 0⟩, 1000000000⟩ [109] 12 0 2 [2, 4, 3]
    rfl rfl (by decide) (by decide) (by decide), by decide, by decide⟩

/-- Key/value state of the Badger-backed cache (src/cache.go).  Badger
tracks expiries internally; the claims settled against this variant do not
depend on them, so the store is modelled as the plain key-to-bytes map, with
backend read/write failures injected as parameters where a claim concerns
them. -/
abbrev BStore := List (GoString × List Nat)

/-- Go map/KV lookup on the Badger-backed store (`txn.Get`; `none` models
`badger.ErrKeyNotFound`). -/
def lookupKV : BStore → GoString → Option (List Nat)
  | [], _ => none
  | (k', v) :: rest, k => if k' = k then some v else lookupKV rest k

/-- Removal of a key from the Badger-backed store. -/
def removeKV : BStore → GoString → BStore
  | [], _ => []
  | (k', v) :: rest, k =>
      if k' = k then removeKV rest k else (k', v) :: removeKV rest k

/-- Overwriting write on the Badger-backed store (`txn.Set` /
`txn.SetWithTTL`). -/
def insertKV (s : BStore) (k : GoString) (v : List Nat) : BStore :=
  (k, v) :: removeKV s k

/-- Error message of the sub-second TTL validation in src/cache.go:307-310
(and src/unnamed/part_003:174-175). -/
def ttlErrMsg : String :=
  "TTL must be >= 1 second. Badger uses Unix timestamps for expiries which operate in second resolution"

/-- src/cache.go:307-323, the transaction-level `setWithTTL` helper: a TTL
strictly between 0 and one second is rejected with a configuration error
before anything is stored; otherwise `txn.SetWithTTL` (positive TTL) or
`txn.Set` (TTL 0) stores the value.  `backendErr` injects a failure of that
underlying store operation. -/
def setWithTTLTxn (s : BStore) (k : GoString) (v : List Nat) (ttl : Int)
    (backendErr : Option String) : Except String BStore :=
  if ttl < timeSecond ∧ 0 < ttl then .error ttlErrMsg
  else
    match backendErr with
    | some e => .error e
    | none => .ok (insertKV s k v)

/-- src/cache.go:243-247, `BadgerCache.SetWithTTL` of the Badger-backed
variant: runs `setWithTTL` inside `db.Update`; an error aborts the
transaction, leaving the store unchanged, and is returned. -/
def badgerSetWithTTL (s : BStore) (k : GoString) (v : List Nat) (ttl : Int)
    (backendErr : Option String) : Option String × BStore :=
  match setWithTTLTxn s k v ttl backendErr with
  | .error e => (some e, s)
  | .ok s₂ => (none, s₂)

/-- src/cache.go:206-234, `BadgerCache.FetchWithTTL` of the Badger-backed
variant: a read hit returns the stored bytes; on a miss the loader is
invoked, a loader error is propagated with nothing written, and on loader
success the write-back runs in a `db.Update` whose error is discarded
(src/cache.go:228-231 ignores the `Update` result), so neither a backend
write failure nor the sub-second TTL validation error reaches the caller. -/
def badgerFetchWithTTL (s : BStore) (k : GoString)
    (l : GoString → List Nat × Option String) (ttl : Int)
    (backendErr : Option String) : (List Nat × Option String) × BStore :=
  match lookupKV s k with
  | some v => ((v, none), s)
  | none =>
      match l k with
      | (ret, some e) => ((ret, some e), s)
      | (ret, none) =>
          match setWithTTLTxn s k ret ttl backendErr with
          | .error _ => ((ret, none), s)
          | .ok s₂ => ((ret, none), s₂)

/-- src/cache.go:266-291, the read phase of the Badger-backed
`BadgerCache.Incr`: `c.Get(k)` runs in its own `db.View` transaction,
separate from any subsequent write. -/
def badgerIncrGet (s : BStore) (k : GoString) : Option (List Nat) := lookupKV s k

/-- src/cache.go:266-291, the write phase of the Badger-backed
`BadgerCache.Incr`, applied to whatever the earlier read phase observed: if
the read phase saw no key the bare delta is stored with `SetWithTTL(k, v, 0)`
and returned; otherwise the merge-operator path adds the delta to the
current value with `uint64` wrap-around and stores the result.  Because read
and write run in separate transactions, a concurrent schedule may order both
read phases before either write phase. -/
def badgerIncrFinish (s : BStore) (k : GoString) (got : Option (List Nat))
    (v : Nat) : Nat × BStore :=
  match got with
  | none => (v, insertKV s k (uint64ToBytes v))
  | some b =>
      let nv := (bytesToUint64 b + v) % 2 ^ 64
      (nv, insertKV s k (uint64ToBytes nv))

/-- C3.  The Badger-backed `Incr` (src/cache.go:266-291) is not serialized
per key: its `Get` and its write run in separate transactions (its own
comment calls it eventually consistent).  In the interleaving where two
concurrent `Incr(k, 5)` calls on the absent key "m" both execute their read
phase before either write phase, both observe key-not-found, both store and
return the bare delta 5, and the final stored value decodes to 5 — not the
sum 10 demanded by the claim, by the spec, and by the repository's own
`TestIncr`, which asserts the exact sum after 100 parallel increments. -/
theorem c3_badger_incr_lost_update :
    badgerIncrGet [] [109] = none ∧
    (badgerIncrFinish [] [109] (badgerIncrGet [] [109]) 5).1 = 5 ∧
    (badgerIncrFinish (badgerIncrFinish [] [109] (badgerIncrGet [] [109]) 5).2 [109]
        (badgerIncrGet [] [109]) 5).1 = 5 ∧
    lookupKV (badgerIncrFinish (badgerIncrFinish [] [109] (badgerIncrGet [] [109]) 5).2 [109]
        (badgerIncrGet [] [109]) 5).2 [109] = some (uint64ToBytes 5) ∧
    bytesToUint64 (uint64ToBytes 5) = 5 ∧ (5 : Nat) ≠ 5 + 5 := by
  refine ⟨rfl, rfl, rfl, rfl, rfl, by decide⟩

/-- src/unnamed/part_005:46-57, `OmniCache.FetchWithTTL` over an abstract
`cache.Conn`: the connection's outcomes are passed as parameters —
`readRes` is `Conn.Read`'s `([]byte, error)` result, `loaderRet`/`loaderErr`
the loader's, `writeErr` the `Conn.WriteTTL` error.  On a read error the
loader runs; a loader error is returned with the loader's bytes; otherwise
the loaded value is returned together with whatever `WriteTTL` returned. -/
def omniFetchWithTTL (readRes : List Nat × Option String) (loaderRet : List Nat)
    (loaderErr : Option String) (writeErr : Option String) :
    List Nat × Option String :=
  match readRes with
  | (v, none) => (v, none)
  | (_, some _) =>
      match loaderErr with
      | some e => (loaderRet, some e)
      | none => (loaderRet, writeErr)

/-- C6 counterexample.  In `OmniCache.FetchWithTTL`
(src/unnamed/part_005:46-57) a cache-write failure does surface to the
caller: with a read miss, a loader that succeeds with value [7], and a
`WriteTTL` that fails with "disk full", the call returns ([7], "disk full")
— the freshly loaded value together with a non-nil error, contradicting the
claim that fetch reports no error when only the cache write failed. -/
theorem c6_omni_reports_write_error :
    omniFetchWithTTL ([], some "key not found") [7] none (some "disk full")
      = ([7], some "disk full") ∧
    (some "disk full" : Option String) ≠ none := by
  exact ⟨rfl, by decide⟩

/-- C6 amended.  A cache-write failure never invalidates the freshly loaded
value, but the two cited implementations report it differently: the
Badger-backed `FetchWithTTL` (src/cache.go:206-234) discards the write-back
error entirely and returns the loaded value with a nil error and the store
unchanged, while `OmniCache.FetchWithTTL` (src/unnamed/part_005:46-57) still
returns the loaded value but passes the write error along with it. -/
theorem c6_write_failure_not_fetch_failure (s : BStore) (k : GoString)
    (l : GoString → List Nat × Option String) (v ret : List Nat)
    (e e₂ r : String) (ttl : Int)
    (hmiss : lookupKV s k = none) (hload : l k = (v, none)) :
    badgerFetchWithTTL s k l ttl (some e) = ((v, none), s) ∧
    omniFetchWithTTL (ret, some r) v none (some e₂) = (v, some e₂) := by
  constructor
  · simp only [badgerFetchWithTTL, hmiss, hload, setWithTTLTxn]
    split
    · rfl
    · rename_i x s₂ heq
      split at heq <;> exact Except.noConfusion heq
  · rfl

/-- C6 witness: key "a" absent, loader succeeds with [7], backend write
fails with "disk full"; the Badger-backed fetch returns ([7], nil error)
with the store unchanged, and the OmniCache fetch returns [7] alongside the
write error. -/
theorem c6_write_failure_witness :
    badgerFetchWithTTL [] [97] (fun _ => ([7], none)) 1000000000 (some "disk full")
      = (([7], none), []) ∧
    omniFetchWithTTL ([], some "key not found") [7] none (some "disk full")
      = ([7], some "disk full") :=
  c6_write_failure_not_fetch_failure [] [97] (fun _ => ([7], none)) [7] []
    "disk full" "disk full" "key not found" 1000000000 rfl rfl

/-- C9 amended.  Only the Badger-backed write path validates TTLs:
`setWithTTL` (src/cache.go:307-323) rejects every TTL strictly between zero
and one second with a configuration error and stores nothing, whatever the
backend would have done; the write-back inside the Badger-backed
`FetchWithTTL` hits the same validation but discards the error, so a
sub-second TTL makes it return the loaded value with a nil error while
silently storing nothing.  The memory-backed variant's `SetWithTTL` performs
no such validation at all and stores the sub-second expiry
(`c9_memory_subsecond_ttl_stored_without_error`). -/
theorem c9_badger_rejects_subsecond_ttl (s : BStore) (k : GoString)
    (l : GoString → List Nat × Option String) (v ret : List Nat) (ttl : Int)
    (be : Option String)
    (h1 : 0 < ttl) (h2 : ttl < timeSecond)
    (hmiss : lookupKV s k = none) (hload : l k = (ret, none)) :
    badgerSetWithTTL s k v ttl be = (some ttlErrMsg, s) ∧
    badgerFetchWithTTL s k l ttl be = ((ret, none), s) := by
  constructor
  · simp only [badgerSetWithTTL, setWithTTLTxn]
    rw [if_pos ⟨h2, h1⟩]
  · simp only [badgerFetchWithTTL, hmiss, hload, setWithTTLTxn]
    rw [if_pos ⟨h2, h1⟩]

/-- C9 witness: TTL 500ms on key "a" with an otherwise healthy backend —
`SetWithTTL` returns the configuration error with the store unchanged, and
the fetch write-back stores nothing while returning the loaded value. -/
theorem c9_badger_rejects_subsecond_witness :
    badgerSetWithTTL [] [97] [7] 500000000 none = (some ttlErrMsg, []) ∧
    badgerFetchWithTTL [] [97] (fun _ => ([7], none)) 500000000 none
      = (([7], none), []) :=
  c9_badger_rejects_subsecond_ttl [] [97] (fun _ => ([7], none)) [7] [7]
    500000000 none (by decide) (by decide) rfl rfl
